import Mathlib

/-!
Shallow embedding of the storestar rating platform.

The embedded code lives in:
* `src/server/src/index.ts` — the express request handlers over a Prisma client;
* `src/server/src/validators.ts` — the zod request schemas;
* `src/prisma/migrations/20251209155413_init/migration.sql` — the relational
  schema (unique index on `Rating(userId, storeId)`, foreign keys, `rating INTEGER`);
* `src/src/contexts/DataContext.tsx` and `src/unnamed/part_003` — the client-side
  data layer (the latter contains an unresolved merge conflict with two divergent
  `addRating`/`updateRating` implementations);
* `src/unnamed/part_000` (UserManagement) and
  `src/store-spotlight-main/src/pages/admin/StoreManagement.tsx` — the admin-view
  client-side filtering and pagination.

JS numbers carried by rating values are modelled as `ℚ` (the zod schema
`z.number().min(1).max(5)` accepts non-integers); timestamps as `ℕ`; ids as
`String` with a deterministic fresh-id source standing in for Prisma's
client-generated ids.
-/

namespace StoreStar

/-- The three roles of `src/server/src/index.ts` line 14. -/
inductive Role
  | admin
  | normal_user
  | store_owner
deriving DecidableEq

/-- A `User` row (migration.sql lines 2-10). The password column stores the
bcrypt hash; `hashPassword` below models hashing as an opaque tag. -/
structure User where
  id : String
  name : String
  email : String
  address : String
  role : Role
  password : String
  createdAt : Nat
deriving DecidableEq

/-- A `Store` row (migration.sql lines 13-20). -/
structure Store where
  id : String
  name : String
  address : String
  ownerId : String
  createdAt : Nat
deriving DecidableEq

/-- A `Rating` row (migration.sql lines 23-31).  The `rating` column is
declared `INTEGER`, but the value arriving from the API is a JS number,
so the field is modelled as `ℚ`; integrality is enforced (as in the Prisma
client for an `Int` field) at write time, see `ratingCreate`. -/
structure Rating where
  id : String
  userId : String
  storeId : String
  rating : ℚ
  createdAt : Nat
deriving DecidableEq

/-- The database state: the three relations plus a deterministic source of
fresh ids and the current timestamp (Prisma generates ids client-side and
`createdAt` defaults to the current time). -/
structure DBState where
  users : List User
  stores : List Store
  ratings : List Rating
  nextId : Nat
  now : Nat
deriving DecidableEq

/-- Storage-level failures surfaced by the Prisma client: the unique index
`Rating_userId_storeId_key` (migration.sql line 37), the foreign keys on
`Rating.userId` / `Rating.storeId` / update targets, and the client-side
type check for an `Int` column. -/
inductive DBError
  | uniqueViolation
  | foreignKeyViolation
  | recordNotFound
  | invalidIntValue
deriving DecidableEq

/-- Outcome of a rating-endpoint request, as the HTTP layer reports it:
`ok` (200 with the row), `badRequest` (400 "invalid"), `unauthorized` (401),
`forbidden` (403), `notFound` (404), or an unhandled storage error
(an uncaught Prisma rejection, surfaced as a server error). -/
inductive ApiResult
  | ok (r : Rating)
  | badRequest
  | unauthorized
  | forbidden
  | notFound
  | serverError (e : DBError)
deriving DecidableEq

/-- The decoded JWT payload attached by `authMiddleware`
(`src/server/src/index.ts` lines 14-27). -/
structure AuthPayload where
  id : String
  role : Role
deriving DecidableEq

/-- `ratingSchema` (`src/server/src/validators.ts` lines 42-44):
`z.object({ rating: z.number().min(1).max(5) })`.  It bounds the number but
performs no integrality check. -/
def ratingSchemaValid (v : ℚ) : Bool :=
  decide (1 ≤ v) && decide (v ≤ 5)

/-- The fresh id Prisma generates for a created row, modelled from the
deterministic counter in the state. -/
def freshRatingId (db : DBState) : String :=
  toString db.nextId

/-- The membership predicate of the unique index
`Rating_userId_storeId_key` on `(userId, storeId)`. -/
def pairPred (u s : String) (r : Rating) : Bool :=
  r.userId == u && r.storeId == s

/-- `prisma.rating.findUnique({ where: { userId_storeId: { userId, storeId } } })`
(`src/server/src/index.ts` line 150): the row for the pair, if any. -/
def ratingFindUnique (u s : String) (db : DBState) : Option Rating :=
  db.ratings.find? (pairPred u s)

/-- `prisma.rating.create` (`src/server/src/index.ts` line 155), including the
storage-level checks the create is subject to: the Prisma `Int` type check on
`rating`, the two foreign keys, and the unique index on `(userId, storeId)`
(migration.sql lines 29-30 and 37).  On success the new row is appended and
the fresh-id counter advances. -/
def ratingCreate (u s : String) (v : ℚ) (db : DBState) :
    Except DBError (Rating × DBState) :=
  if v.den ≠ 1 then .error .invalidIntValue
  else if ¬ (∃ x ∈ db.users, x.id = u) then .error .foreignKeyViolation
  else if ¬ (∃ x ∈ db.stores, x.id = s) then .error .foreignKeyViolation
  else if ∃ r ∈ db.ratings, pairPred u s r = true then .error .uniqueViolation
  else
    let r : Rating := ⟨freshRatingId db, u, s, v, db.now⟩
    .ok (r, { db with ratings := db.ratings ++ [r], nextId := db.nextId + 1 })

/-- `prisma.rating.update({ where: { id }, data: { rating } })`
(`src/server/src/index.ts` line 152): rewrites the `rating` field of the row
with the given primary key, leaving `id`, `userId`, `storeId` and `createdAt`
unchanged; fails when no such row exists or the value is not an `Int`. -/
def ratingUpdate (rid : String) (v : ℚ) (db : DBState) :
    Except DBError (Rating × DBState) :=
  if v.den ≠ 1 then .error .invalidIntValue
  else
    match db.ratings.find? (fun r => r.id == rid) with
    | none => .error .recordNotFound
    | some ex =>
        .ok ({ ex with rating := v },
             { db with ratings :=
                 db.ratings.map (fun r => if r.id == rid then { r with rating := v } else r) })

/-- The write half of `POST /stores/:id/ratings`
(`src/server/src/index.ts` lines 151-156): given the result of the
`findUnique` lookup, either update the found row or create a fresh one.
A storage error propagates as an unhandled rejection (server error). -/
def submitRatingWrite (me : AuthPayload) (storeId : String) (v : ℚ)
    (observed : Option Rating) (db : DBState) : ApiResult × DBState :=
  match observed with
  | some ex =>
      match ratingUpdate ex.id v db with
      | .ok (r, db1) => (.ok r, db1)
      | .error e => (.serverError e, db)
  | none =>
      match ratingCreate me.id storeId v db with
      | .ok (r, db1) => (.ok r, db1)
      | .error e => (.serverError e, db)

/-- `POST /stores/:id/ratings` after `authMiddleware`, parameterised by the
already-performed read (`findUnique`) so that concurrent interleavings of the
read and write phases can be expressed.  Validation comes first, as in the
handler (line 148-149). -/
def submitRatingWith (me : AuthPayload) (storeId : String) (v : ℚ)
    (observed : Option Rating) (db : DBState) : ApiResult × DBState :=
  if ratingSchemaValid v then submitRatingWrite me storeId v observed db
  else (.badRequest, db)

/-- The full `POST /stores/:id/ratings` handler
(`src/server/src/index.ts` lines 146-157): parse the body with
`ratingSchema`, look up the existing row for `(me.id, storeId)`, then update
it or create a new one.  Note: the handler performs no role check and no
store-existence check. -/
def submitRating (me : AuthPayload) (storeId : String) (v : ℚ)
    (db : DBState) : ApiResult × DBState :=
  submitRatingWith me storeId v (ratingFindUnique me.id storeId db) db

/-- Outcome of `PATCH /users/:id/password`. -/
inductive PasswordResult
  | success
  | badRequest
  | unauthorized
  | forbidden
  | serverError (e : DBError)
deriving DecidableEq

/-- `hashPassword` (`src/server/src/auth.ts`): bcrypt hashing, modelled as an
opaque injective tagging of the plaintext. -/
def hashPassword (p : String) : String :=
  "bcrypt$" ++ p

/-- `prisma.user.update({ where: { id }, data: { password } })`
(`src/server/src/index.ts` line 57): rewrites the password of the row with the
given id, failing when it does not exist. -/
def userUpdatePassword (targetId pw : String) (db : DBState) :
    Except DBError DBState :=
  if ∃ u ∈ db.users, u.id = targetId then
    .ok { db with users :=
            db.users.map (fun u =>
              if u.id == targetId then { u with password := hashPassword pw } else u) }
  else .error .recordNotFound

/-- `PATCH /users/:id/password` after `authMiddleware`
(`src/server/src/index.ts` lines 53-59): reject an empty `newPassword`
(JS falsiness of the empty string), then update the password of whatever user
id appears in the path.  The authenticated caller `me` is never consulted. -/
def patchPassword (_me : AuthPayload) (targetId newPassword : String)
    (db : DBState) : PasswordResult × DBState :=
  if newPassword = "" then (.badRequest, db)
  else
    match userUpdatePassword targetId newPassword db with
    | .ok db1 => (.success, db1)
    | .error e => (.serverError e, db)

/-- `getStoreAverageRating` (`src/src/contexts/DataContext.tsx` lines 168-176,
identical in `src/unnamed/part_003` lines 259-267): 0 when the store has no
ratings, otherwise the reduce-sum of the values divided by their count. -/
def getStoreAverageRating (ratings : List Rating) (storeId : String) : ℚ :=
  let storeRatings := ratings.filter (fun r => r.storeId == storeId)
  if storeRatings.length = 0 then 0
  else (storeRatings.foldl (fun acc r => acc + r.rating) 0) / storeRatings.length

/-- `prisma.rating.aggregate({ where: { storeId }, _avg: { rating } })`
(`src/server/src/index.ts` lines 125 and 140): SQL `AVG`, `none` when no rows
match. -/
def prismaAvgRating (ratings : List Rating) (storeId : String) : Option ℚ :=
  let rs := ratings.filter (fun r => r.storeId == storeId)
  if rs.length = 0 then none
  else some ((rs.map Rating.rating).sum / rs.length)

/-- The `averageRating` field computed by `GET /stores` and `GET /admin/stores`
(`src/server/src/index.ts` lines 126 and 141): `avg._avg.rating || 0`, i.e. the
aggregate with JS-falsy `null` and `0` both collapsed to `0`. -/
def storeAverageRating (ratings : List Rating) (storeId : String) : ℚ :=
  match prismaAvgRating ratings storeId with
  | none => 0
  | some a => if a = 0 then 0 else a

/-- JS `String.prototype.toLowerCase`, per character. -/
def jsToLower (s : String) : String :=
  ⟨s.data.map Char.toLower⟩

/-- JS `String.prototype.includes`: the needle occurs contiguously in the
haystack. -/
def jsIncludes (hay needle : String) : Bool :=
  decide (List.IsInfix needle.data hay.data)

/-- The search predicate of the admin store view
(`src/store-spotlight-main/src/pages/admin/StoreManagement.tsx` lines 84-91):
the lower-cased term occurs in the lower-cased name, address, or owner
email, the owner being looked up among the users by `ownerId` (line 75);
a store whose owner is not found contributes `false` for the email clause
(optional chaining). -/
def adminStoreMatch (users : List User) (term : String) (st : Store) : Bool :=
  let t := jsToLower term
  jsIncludes (jsToLower st.name) t ||
  jsIncludes (jsToLower st.address) t ||
  (match users.find? (fun u => u.id == st.ownerId) with
   | some o => jsIncludes (jsToLower o.email) t
   | none => false)

/-- The search-filter stage of `filteredStores` in the admin store view
(StoreManagement.tsx lines 80-92): applied only when the term is non-empty
(JS truthiness); the subsequent sort permutes but never drops entries. -/
def adminFilteredStores (users : List User) (term : String)
    (stores : List Store) : List Store :=
  if term = "" then stores else stores.filter (adminStoreMatch users term)

/-- The specification notion of a case-insensitive substring match: the
needle, lower-cased, occurs in the lower-cased haystack. -/
def ciSubstr (needle hay : String) : Bool :=
  jsIncludes (jsToLower hay) (jsToLower needle)

/-- `itemsPerPage` (`src/unnamed/part_000` line 61, StoreManagement.tsx
line 55). -/
def itemsPerPage : Nat := 10

/-- JS `Array.prototype.slice(start, stop)`: the elements at indices
`start ≤ i < stop`. -/
def jsSlice {α : Type} (l : List α) (start stop : Nat) : List α :=
  (l.drop start).take (stop - start)

/-- `paginatedUsers` (`src/unnamed/part_000` lines 107-110):
`filteredUsers.slice(start, start + itemsPerPage)` with
`start = (currentPage - 1) * itemsPerPage`. -/
def paginatedUsers (filteredUsers : List User) (currentPage : Nat) : List User :=
  jsSlice filteredUsers ((currentPage - 1) * itemsPerPage)
    ((currentPage - 1) * itemsPerPage + itemsPerPage)

/-- `paginatedStores` (StoreManagement.tsx lines 115-118): the same slice over
the filtered, sorted stores. -/
def paginatedStores (filteredStores : List Store) (currentPage : Nat) : List Store :=
  jsSlice filteredStores ((currentPage - 1) * itemsPerPage)
    ((currentPage - 1) * itemsPerPage + itemsPerPage)

/-- The client-side data layer state of `src/unnamed/part_003`: the `ratings`
array plus deterministic stand-ins for `Date.now()` (fresh ids and
timestamps). -/
structure ClientState where
  ratings : List Rating
  nextId : Nat
  now : Nat
deriving DecidableEq

/-- `addRating` as it extends the client `ratings` array: both merge branches
append a row for the submitted `(userId, storeId)` pair
(`src/unnamed/part_003` line 183 and lines 187-188 for the HEAD branch —
server response or local fallback — and lines 217-224 for the other
branch). -/
def addRatingClient (u s : String) (v : ℚ) (c : ClientState) : ClientState :=
  { c with
    ratings := c.ratings ++ [⟨toString c.nextId, u, s, v, c.now⟩],
    nextId := c.nextId + 1 }

/-- `updateRating` of the HEAD merge branch (`src/unnamed/part_003` lines
191-197): find the rating by id, re-submit it through `addRating` (which
appends a row), then rewrite in place every row whose id matches. -/
def updateRatingHead (rid : String) (v : ℚ) (c : ClientState) : ClientState :=
  let c1 :=
    match c.ratings.find? (fun r => r.id == rid) with
    | some ex => addRatingClient ex.userId ex.storeId v c
    | none => c
  { c1 with
    ratings := c1.ratings.map (fun r => if r.id == rid then { r with rating := v } else r) }

/-- `updateRating` of the other merge branch (`src/unnamed/part_003` lines
226-230): rewrite in place the row whose id matches; nothing is appended. -/
def updateRatingV2 (rid : String) (v : ℚ) (c : ClientState) : ClientState :=
  { c with
    ratings := c.ratings.map (fun r => if r.id == rid then { r with rating := v } else r) }

/-- Number of rating rows held for a `(userId, storeId)` pair. -/
def pairCount (rs : List Rating) (u s : String) : Nat :=
  (rs.filter (pairPred u s)).length

/-- The canonical interleavings of two `submitRating` requests for the same
pair: each request is a read phase (`findUnique`, which does not change the
state) followed by a write phase.  Because reads commute, the six
program-order-respecting interleavings collapse to these four. -/
inductive Sched
  | seqAB
  | seqBA
  | raceAB
  | raceBA
deriving DecidableEq

/-- Execute two `submitRating` requests (caller `me`, store `s`, values `vA`
and `vB`) under the given interleaving, returning both results and the final
state.  In the race schedules both reads observe the initial state before
either write runs — exactly the interleaving the check-then-act handler is
exposed to. -/
def concurrentPair (sched : Sched) (me : AuthPayload) (s : String)
    (vA vB : ℚ) (db : DBState) : ApiResult × ApiResult × DBState :=
  match sched with
  | .seqAB =>
      let ra := submitRating me s vA db
      let rb := submitRating me s vB ra.2
      (ra.1, rb.1, rb.2)
  | .seqBA =>
      let rb := submitRating me s vB db
      let ra := submitRating me s vA rb.2
      (ra.1, rb.1, ra.2)
  | .raceAB =>
      let oA := ratingFindUnique me.id s db
      let oB := ratingFindUnique me.id s db
      let ra := submitRatingWith me s vA oA db
      let rb := submitRatingWith me s vB oB ra.2
      (ra.1, rb.1, rb.2)
  | .raceBA =>
      let oA := ratingFindUnique me.id s db
      let oB := ratingFindUnique me.id s db
      let rb := submitRatingWith me s vB oB db
      let ra := submitRatingWith me s vA oA rb.2
      (ra.1, rb.1, ra.2)

/-! ### Concrete fixtures

A small database in the shape of the seed data of `src/unnamed/part_003`:
one admin, one store owner, one normal user, and one store owned by the
owner.  Used by the witnesses and counterexamples below. -/

/-- Fixture: the admin user. -/
def demoAdmin : User := ⟨"1", "Ann Admin", "admin@x.com", "1 A St", .admin, "h", 0⟩

/-- Fixture: the store owner. -/
def demoOwner : User := ⟨"2", "Omar Owner", "owner@x.com", "2 B St", .store_owner, "h", 0⟩

/-- Fixture: the normal user. -/
def demoNormal : User := ⟨"3", "Nia Normal", "user@x.com", "3 C St", .normal_user, "h", 0⟩

/-- Fixture: a store owned by `demoOwner`. -/
def demoStore : Store := ⟨"s1", "Alpha Shop", "9 Tech Blvd", "2", 0⟩

/-- Fixture: the initial database: three users, one store, no ratings. -/
def demoDB : DBState := ⟨[demoAdmin, demoOwner, demoNormal], [demoStore], [], 10, 77⟩

/-- Fixture: the normal user's identity claim. -/
def demoNormalAuth : AuthPayload := ⟨"3", .normal_user⟩

/-- Fixture: the admin's identity claim. -/
def demoAdminAuth : AuthPayload := ⟨"1", .admin⟩

/-- Fixture: a client-side state holding one rating of user "3" for store
"1", as in the seed data of `src/unnamed/part_003`. -/
def demoClient : ClientState := ⟨[⟨"1", "3", "1", 4, 0⟩], 100, 5⟩

/-! ### List helpers -/

/-- `find?` over an append skips a prefix containing no match. -/
theorem find?_append_none {α : Type} (p : α → Bool) {l1 : List α} (l2 : List α)
    (h : l1.find? p = none) : (l1 ++ l2).find? p = l2.find? p := by
  induction l1 with
  | nil => rfl
  | cons a t ih =>
      cases hpa : p a with
      | true => rw [List.find?_cons_of_pos _ hpa] at h; cases h
      | false =>
          rw [List.find?_cons_of_neg _ (by simp [hpa])] at h
          rw [List.cons_append, List.find?_cons_of_neg _ (by simp [hpa])]
          exact ih h

/-- `find?` returns the unique element satisfying the predicate. -/
theorem find?_eq_some_of_unique {α : Type} (p : α → Bool) {l : List α} {a : α}
    (ha : a ∈ l) (hpa : p a = true) (huniq : ∀ x ∈ l, p x = true → x = a) :
    l.find? p = some a := by
  induction l with
  | nil => cases ha
  | cons b t ih =>
      cases hb : p b with
      | true =>
          rw [List.find?_cons_of_pos _ hb]
          rw [huniq b (List.mem_cons_self b t) hb]
      | false =>
          rw [List.find?_cons_of_neg _ (by simp [hb])]
          rcases List.mem_cons.mp ha with rfl | hat
          · rw [hpa] at hb; cases hb
          · exact ih hat (fun x hx hpx => huniq x (List.mem_cons_of_mem _ hx) hpx)

/-- A map that fixes every element of a list is the identity on it. -/
theorem map_eq_self_of {α : Type} {f : α → α} {l : List α}
    (h : ∀ a ∈ l, f a = a) : l.map f = l := by
  rw [List.map_congr_left h]
  simp

/-- A list whose elements all fail the pair predicate filters to `[]`. -/
theorem filter_pair_nil {u s : String} {l : List Rating}
    (h : ∀ r ∈ l, pairPred u s r = false) : l.filter (pairPred u s) = [] :=
  List.filter_eq_nil_iff.mpr (fun a ha => by simp [h a ha])

/-- `pairCount` distributes over append. -/
theorem pairCount_append (l1 l2 : List Rating) (u s : String) :
    pairCount (l1 ++ l2) u s = pairCount l1 u s + pairCount l2 u s := by
  simp [pairCount, List.filter_append]

/-- A map that changes neither `userId` nor `storeId` preserves `pairCount`. -/
theorem pairCount_map_preserve {f : Rating → Rating}
    (hf : ∀ r, (f r).userId = r.userId ∧ (f r).storeId = r.storeId)
    (l : List Rating) (u s : String) :
    pairCount (l.map f) u s = pairCount l u s := by
  induction l with
  | nil => rfl
  | cons a t ih =>
      have hpp : pairPred u s (f a) = pairPred u s a := by
        simp [pairPred, (hf a).1, (hf a).2]
      simp only [pairCount, List.map_cons, List.filter_cons] at ih ⊢
      rw [hpp]
      cases pairPred u s a <;> simp_all [pairCount]

/-! ### Computation lemmas for the rating handler -/

/-- `findUnique` on the pair returns nothing when no row matches. -/
theorem ratingFindUnique_none {u s : String} {db : DBState}
    (hpair : ∀ r ∈ db.ratings, pairPred u s r = false) :
    ratingFindUnique u s db = none :=
  List.find?_eq_none.mpr (fun x hx => by simp [hpair x hx])

/-- The row appended by a successful create. -/
def createdRow (db : DBState) (u s : String) (v : ℚ) : Rating :=
  ⟨freshRatingId db, u, s, v, db.now⟩

/-- The state after a successful create. -/
def afterCreate (db : DBState) (u s : String) (v : ℚ) : DBState :=
  { db with ratings := db.ratings ++ [createdRow db u s v], nextId := db.nextId + 1 }

/-- A create succeeds when the value is integral, both foreign keys resolve,
and no row for the pair exists. -/
theorem ratingCreate_ok {u s : String} {v : ℚ} {db : DBState}
    (hd : v.den = 1)
    (hu : ∃ x ∈ db.users, x.id = u)
    (hs : ∃ x ∈ db.stores, x.id = s)
    (hpair : ∀ r ∈ db.ratings, pairPred u s r = false) :
    ratingCreate u s v db = .ok (createdRow db u s v, afterCreate db u s v) := by
  rw [ratingCreate, if_neg (fun h => h hd), if_neg (not_not_intro hu),
    if_neg (not_not_intro hs), if_neg ?_]
  · rfl
  · rintro ⟨r, hr, hp⟩
    rw [hpair r hr] at hp
    cases hp

/-- A create hits the unique index when a row for the pair already exists
(and the earlier checks pass). -/
theorem ratingCreate_conflict {u s : String} {v : ℚ} {db : DBState}
    (hd : v.den = 1)
    (hu : ∃ x ∈ db.users, x.id = u)
    (hs : ∃ x ∈ db.stores, x.id = s)
    (hx : ∃ r ∈ db.ratings, pairPred u s r = true) :
    ratingCreate u s v db = .error .uniqueViolation := by
  rw [ratingCreate, if_neg (fun h => h hd), if_neg (not_not_intro hu),
    if_neg (not_not_intro hs), if_pos hx]

/-- A write with no observed row is a create; on success the handler returns
the created row. -/
theorem submitRatingWith_none_ok {me : AuthPayload} {s : String} {v : ℚ}
    {db : DBState}
    (hv : ratingSchemaValid v = true) (hd : v.den = 1)
    (hu : ∃ x ∈ db.users, x.id = me.id)
    (hs : ∃ x ∈ db.stores, x.id = s)
    (hpair : ∀ r ∈ db.ratings, pairPred me.id s r = false) :
    submitRatingWith me s v none db =
      (.ok (createdRow db me.id s v), afterCreate db me.id s v) := by
  rw [submitRatingWith, if_pos hv, submitRatingWrite, ratingCreate_ok hd hu hs hpair]

/-- A write with a stale `none` observation against a state that already
holds a row for the pair surfaces the unique-index violation and leaves the
state unchanged. -/
theorem submitRatingWith_stale_conflict {me : AuthPayload} {s : String} {v : ℚ}
    {db : DBState}
    (hv : ratingSchemaValid v = true) (hd : v.den = 1)
    (hu : ∃ x ∈ db.users, x.id = me.id)
    (hs : ∃ x ∈ db.stores, x.id = s)
    (hx : ∃ r ∈ db.ratings, pairPred me.id s r = true) :
    submitRatingWith me s v none db = (.serverError .uniqueViolation, db) := by
  rw [submitRatingWith, if_pos hv, submitRatingWrite, ratingCreate_conflict hd hu hs hx]

/-- A first submission (no row for the pair yet) creates the fresh row. -/
theorem submitRating_creates {me : AuthPayload} {s : String} {v : ℚ}
    {db : DBState}
    (hv : ratingSchemaValid v = true) (hd : v.den = 1)
    (hu : ∃ x ∈ db.users, x.id = me.id)
    (hs : ∃ x ∈ db.stores, x.id = s)
    (hpair : ∀ r ∈ db.ratings, pairPred me.id s r = false) :
    submitRating me s v db =
      (.ok (createdRow db me.id s v), afterCreate db me.id s v) := by
  rw [submitRating, ratingFindUnique_none hpair,
    submitRatingWith_none_ok hv hd hu hs hpair]

/-- A submission against the state produced by a first submission finds the
created row and rewrites its value in place: same id, same `createdAt`. -/
theorem submitRating_updates {me : AuthPayload} {s : String} {v1 v2 : ℚ}
    {db : DBState}
    (hv : ratingSchemaValid v2 = true) (hd : v2.den = 1)
    (hpair : ∀ r ∈ db.ratings, pairPred me.id s r = false)
    (hfresh : ∀ r ∈ db.ratings, r.id ≠ freshRatingId db) :
    submitRating me s v2 (afterCreate db me.id s v1) =
      (.ok (createdRow db me.id s v2),
       { afterCreate db me.id s v1 with
           ratings := db.ratings ++ [createdRow db me.id s v2] }) := by
  have hfind : ratingFindUnique me.id s (afterCreate db me.id s v1)
      = some (createdRow db me.id s v1) := by
    rw [ratingFindUnique]
    show (db.ratings ++ [createdRow db me.id s v1]).find? _ = _
    rw [find?_append_none _ _ (List.find?_eq_none.mpr (fun x hx => by simp [hpair x hx]))]
    exact List.find?_cons_of_pos _ (by simp [pairPred, createdRow])
  have hfindId : ((afterCreate db me.id s v1).ratings.find?
      (fun r => r.id == (createdRow db me.id s v1).id))
      = some (createdRow db me.id s v1) := by
    show (db.ratings ++ [createdRow db me.id s v1]).find? _ = _
    rw [find?_append_none _ _ (List.find?_eq_none.mpr
      (fun x hx => by simp [createdRow, hfresh x hx]))]
    exact List.find?_cons_of_pos _ (by simp)
  have hupd : ratingUpdate (createdRow db me.id s v1).id v2 (afterCreate db me.id s v1)
      = .ok (createdRow db me.id s v2,
             { afterCreate db me.id s v1 with
                 ratings := db.ratings ++ [createdRow db me.id s v2] }) := by
    rw [ratingUpdate, if_neg (fun h => h hd), hfindId]
    have hmap : (afterCreate db me.id s v1).ratings.map
        (fun r => if r.id == (createdRow db me.id s v1).id
                  then { r with rating := v2 } else r)
        = db.ratings ++ [createdRow db me.id s v2] := by
      show (db.ratings ++ [createdRow db me.id s v1]).map _ = _
      rw [List.map_append]
      rw [map_eq_self_of (fun a ha => by simp [createdRow, hfresh a ha])]
      simp [createdRow]
    rw [hmap]
    rfl
  rw [submitRating, hfind, submitRatingWith, if_pos hv, submitRatingWrite, hupd]

/-! ### Further helpers for the claim theorems -/

/-- Folding addition of the rating fields equals the sum of the mapped
values, shifted by the initial accumulator. -/
theorem foldl_add_rating (l : List Rating) (init : ℚ) :
    l.foldl (fun acc r => acc + r.rating) init = init + (l.map Rating.rating).sum := by
  induction l generalizing init with
  | nil => simp
  | cons a t ih => simp [ih, add_assoc]

/-- The write phase never produces a 403, whatever was observed. -/
theorem submitRatingWrite_ne_forbidden (me : AuthPayload) (sid : String)
    (v : ℚ) (obs : Option Rating) (db : DBState) :
    (submitRatingWrite me sid v obs db).1 ≠ ApiResult.forbidden := by
  rw [submitRatingWrite.eq_def]
  cases obs with
  | some ex =>
      rcases h : ratingUpdate ex.id v db with e | ⟨r, db1⟩ <;> simp [h]
  | none =>
      rcases h : ratingCreate me.id sid v db with e | ⟨r, db1⟩ <;> simp [h]

/-! ### Claim theorems -/

/-- C4 (status: code bug in the validator): `ratingSchema` rejects 0 and 6
with a 400 validation error, as the claim states, but it performs no
integrality check, so the non-integer 5/2 passes validation; the handler then
proceeds and the write is rejected by the storage layer's `Int` column as an
unhandled server error rather than a `ValidationError`.  No row is created. -/
theorem ratingSchema_accepts_noninteger :
    ratingSchemaValid 0 = false ∧
    ratingSchemaValid 6 = false ∧
    (submitRating demoNormalAuth "s1" 0 demoDB).1 = ApiResult.badRequest ∧
    (submitRating demoNormalAuth "s1" 6 demoDB).1 = ApiResult.badRequest ∧
    ratingSchemaValid (5 / 2) = true ∧
    (submitRating demoNormalAuth "s1" (5 / 2) demoDB).1
      = ApiResult.serverError DBError.invalidIntValue ∧
    (submitRating demoNormalAuth "s1" (5 / 2) demoDB).2 = demoDB := by
  have h52 : ((5 : ℚ) / 2) = (⟨5, 2, by decide, by decide⟩ : ℚ) := by
    apply Rat.ext <;> norm_num
  rw [h52]
  decide

/-- C5: both the client-side `getStoreAverageRating` and the server-side
`averageRating` field (`aggregate._avg.rating || 0`) return exactly 0 for a
store with no ratings and otherwise the exact arithmetic mean of the matching
rating values, with no rounding. -/
theorem averageRating_exact_mean (rs : List Rating) (sid : String) :
    getStoreAverageRating rs sid =
      (if (rs.filter (fun r => r.storeId == sid)).length = 0 then 0
       else ((rs.filter (fun r => r.storeId == sid)).map Rating.rating).sum
              / ((rs.filter (fun r => r.storeId == sid)).length : ℚ)) ∧
    storeAverageRating rs sid = getStoreAverageRating rs sid := by
  have h1 : getStoreAverageRating rs sid =
      (if (rs.filter (fun r => r.storeId == sid)).length = 0 then 0
       else ((rs.filter (fun r => r.storeId == sid)).map Rating.rating).sum
              / ((rs.filter (fun r => r.storeId == sid)).length : ℚ)) := by
    rw [getStoreAverageRating]
    by_cases hl : (rs.filter (fun r => r.storeId == sid)).length = 0
    · rw [if_pos hl, if_pos hl]
    · rw [if_neg hl, if_neg hl, foldl_add_rating, zero_add]
  refine ⟨h1, ?_⟩
  rw [h1, storeAverageRating, prismaAvgRating]
  by_cases hl : (rs.filter (fun r => r.storeId == sid)).length = 0
  · rw [if_pos hl]
    simp [hl]
  · rw [if_neg hl]
    simp only [hl, if_false]
    rcases eq_or_ne (((rs.filter (fun r => r.storeId == sid)).map Rating.rating).sum
      / ((rs.filter (fun r => r.storeId == sid)).length : ℚ)) 0 with h0 | h0
    · simp [h0]
    · simp [h0]

/-- C7: for a 1-indexed page `p`, the client-side pagination of both the
user listing and the store listing returns exactly the elements of the
filtered, sorted matches at positions `(p-1)*10` through `p*10` (exclusive);
the total match count displayed alongside is the length of the full filtered
list. -/
theorem pagination_returns_slice (l : List User) (m : List Store) (p : Nat)
    (hp : 1 ≤ p) :
    paginatedUsers l p = (l.take (p * itemsPerPage)).drop ((p - 1) * itemsPerPage) ∧
    paginatedStores m p = (m.take (p * itemsPerPage)).drop ((p - 1) * itemsPerPage) := by
  have hmul : p * itemsPerPage - (p - 1) * itemsPerPage = itemsPerPage := by
    obtain ⟨q, rfl⟩ : ∃ q, p = q + 1 := ⟨p - 1, (Nat.succ_pred_eq_of_pos hp).symm⟩
    simp [Nat.succ_mul]
  constructor
  · rw [paginatedUsers, jsSlice, Nat.add_sub_cancel_left, List.drop_take, hmul]
  · rw [paginatedStores, jsSlice, Nat.add_sub_cancel_left, List.drop_take, hmul]

/-- C7 witness: page 1 over the three demo users and one demo store. -/
theorem pagination_returns_slice_witness :
    1 ≤ 1 ∧
    (paginatedUsers [demoAdmin, demoOwner, demoNormal] 1
        = (([demoAdmin, demoOwner, demoNormal].take (1 * itemsPerPage)).drop
            ((1 - 1) * itemsPerPage)) ∧
     paginatedStores [demoStore] 1
        = (([demoStore].take (1 * itemsPerPage)).drop ((1 - 1) * itemsPerPage))) :=
  ⟨le_refl 1, pagination_returns_slice [demoAdmin, demoOwner, demoNormal] [demoStore] 1 (le_refl 1)⟩

/-- C8 counterexample: an authenticated admin's rating submission is not
rejected with Forbidden; it succeeds and creates a Rating row, refuting the
claim that callers with role admin or store owner fail with Forbidden. -/
theorem submitRating_admin_not_forbidden :
    (submitRating demoAdminAuth "s1" 5 demoDB).1 = ApiResult.ok ⟨"10", "1", "s1", 5, 77⟩ ∧
    (submitRating demoAdminAuth "s1" 5 demoDB).1 ≠ ApiResult.forbidden ∧
    pairCount (submitRating demoAdminAuth "s1" 5 demoDB).2.ratings "1" "s1" = 1 := by
  decide

/-- C8 amended: the rating handler performs no role check at all: no caller,
whatever the role in the identity claim, ever receives Forbidden from
`submitRating`. -/
theorem submitRating_never_forbidden (me : AuthPayload) (sid : String) (v : ℚ)
    (db : DBState) : (submitRating me sid v db).1 ≠ ApiResult.forbidden := by
  rw [submitRating, submitRatingWith]
  split
  · exact submitRatingWrite_ne_forbidden me sid v _ db
  · simp

/-- C10: the password-update endpoint replaces the password of whatever user
id appears in the path, for any authenticated caller and any non-empty new
password: it never returns Forbidden for any caller/target combination, it
reports success whenever the target exists, the target's stored password
becomes the hash of the new password, and all other rows are untouched. -/
theorem patchPassword_updates_any_target (me : AuthPayload)
    (targetId pw : String) (db : DBState) (hpw : pw ≠ "")
    (target : User) (ht : target ∈ db.users) (hid : target.id = targetId) :
    (∀ (me2 : AuthPayload) (t2 p2 : String) (db2 : DBState),
        (patchPassword me2 t2 p2 db2).1 ≠ PasswordResult.forbidden) ∧
    (patchPassword me targetId pw db).1 = PasswordResult.success ∧
    { target with password := hashPassword pw } ∈ (patchPassword me targetId pw db).2.users ∧
    ∀ u ∈ db.users, u.id ≠ targetId → u ∈ (patchPassword me targetId pw db).2.users := by
  have hex : ∃ u ∈ db.users, u.id = targetId := ⟨target, ht, hid⟩
  have hupd : userUpdatePassword targetId pw db =
      .ok { db with users := db.users.map (fun u =>
              if u.id == targetId then { u with password := hashPassword pw } else u) } := by
    rw [userUpdatePassword, if_pos hex]
  have hpp : patchPassword me targetId pw db =
      (.success, { db with users := db.users.map (fun u =>
          if u.id == targetId then { u with password := hashPassword pw } else u) }) := by
    rw [patchPassword, if_neg hpw, hupd]
  refine ⟨?_, ?_, ?_, ?_⟩
  · intro me2 t2 p2 db2
    rw [patchPassword]
    split
    · simp
    · rcases h : userUpdatePassword t2 p2 db2 with e | d <;> simp [h]
  · rw [hpp]
  · rw [hpp]
    have hft : (fun u =>
        if u.id == targetId then { u with password := hashPassword pw } else u) target
        = { target with password := hashPassword pw } := by
      simp [hid]
    exact hft ▸ List.mem_map_of_mem _ ht
  · intro u hu hne
    rw [hpp]
    have hfu : (fun u =>
        if u.id == targetId then { u with password := hashPassword pw } else u) u = u := by
      simp [hne]
    exact hfu ▸ List.mem_map_of_mem _ hu

/-- C10 witness: the normal user "3" successfully replaces the password of
the admin "1". -/
theorem patchPassword_updates_any_target_witness :
    ("newpw" ≠ "" ∧ demoAdmin ∈ demoDB.users ∧ demoAdmin.id = "1") ∧
    ((∀ (me2 : AuthPayload) (t2 p2 : String) (db2 : DBState),
        (patchPassword me2 t2 p2 db2).1 ≠ PasswordResult.forbidden) ∧
     (patchPassword demoNormalAuth "1" "newpw" demoDB).1 = PasswordResult.success ∧
     { demoAdmin with password := hashPassword "newpw" }
        ∈ (patchPassword demoNormalAuth "1" "newpw" demoDB).2.users ∧
     ∀ u ∈ demoDB.users, u.id ≠ "1"
        → u ∈ (patchPassword demoNormalAuth "1" "newpw" demoDB).2.users) :=
  ⟨⟨by decide, by decide, by decide⟩,
   patchPassword_updates_any_target demoNormalAuth "1" "newpw" demoDB (by decide)
     demoAdmin (by decide) (by decide)⟩

/-- C1: starting from a state with no rating for the pair, submitting `v1`
and then `v2` for the same `(userId, storeId)` leaves exactly one Rating row
for the pair; its value is `v2` and its id and `createdAt` are those of the
row created by the first call. -/
theorem resubmission_overwrites_in_place (me : AuthPayload) (s : String)
    (v1 v2 : ℚ) (db : DBState)
    (hu : ∃ x ∈ db.users, x.id = me.id)
    (hs : ∃ x ∈ db.stores, x.id = s)
    (hpair : ∀ r ∈ db.ratings, pairPred me.id s r = false)
    (hfresh : ∀ r ∈ db.ratings, r.id ≠ freshRatingId db)
    (h1l : 1 ≤ v1) (h1u : v1 ≤ 5) (hd1 : v1.den = 1)
    (h2l : 1 ≤ v2) (h2u : v2 ≤ 5) (hd2 : v2.den = 1) :
    (submitRating me s v1 db).1
      = ApiResult.ok ⟨freshRatingId db, me.id, s, v1, db.now⟩ ∧
    ((submitRating me s v2 (submitRating me s v1 db).2).2.ratings.filter
        (pairPred me.id s))
      = [⟨freshRatingId db, me.id, s, v2, db.now⟩] := by
  have hv1 : ratingSchemaValid v1 = true := by simp [ratingSchemaValid, h1l, h1u]
  have hv2 : ratingSchemaValid v2 = true := by simp [ratingSchemaValid, h2l, h2u]
  have e1 := @submitRating_creates me s v1 db hv1 hd1 hu hs hpair
  have e1b : (submitRating me s v1 db).2 = afterCreate db me.id s v1 := by rw [e1]
  constructor
  · rw [e1]
    rfl
  · rw [e1b, @submitRating_updates me s v1 v2 db hv2 hd2 hpair hfresh]
    show ((db.ratings ++ [createdRow db me.id s v2]).filter (pairPred me.id s)) = _
    rw [List.filter_append, filter_pair_nil hpair]
    simp [pairPred, createdRow]

/-- C1 witness: user "3" rates store "s1" with 4 and then 2 on the demo
database. -/
theorem resubmission_overwrites_in_place_witness :
    ((∃ x ∈ demoDB.users, x.id = demoNormalAuth.id) ∧
     (∃ x ∈ demoDB.stores, x.id = "s1") ∧
     (∀ r ∈ demoDB.ratings, pairPred demoNormalAuth.id "s1" r = false) ∧
     (∀ r ∈ demoDB.ratings, r.id ≠ freshRatingId demoDB) ∧
     (1 : ℚ) ≤ 4 ∧ (4 : ℚ) ≤ 5 ∧ (4 : ℚ).den = 1 ∧
     (1 : ℚ) ≤ 2 ∧ (2 : ℚ) ≤ 5 ∧ (2 : ℚ).den = 1) ∧
    ((submitRating demoNormalAuth "s1" 4 demoDB).1
        = ApiResult.ok ⟨freshRatingId demoDB, demoNormalAuth.id, "s1", 4, demoDB.now⟩ ∧
     ((submitRating demoNormalAuth "s1" 2
          (submitRating demoNormalAuth "s1" 4 demoDB).2).2.ratings.filter
        (pairPred demoNormalAuth.id "s1"))
        = [⟨freshRatingId demoDB, demoNormalAuth.id, "s1", 2, demoDB.now⟩]) :=
  ⟨⟨by decide, by decide, by decide, by decide, by decide, by decide, by decide,
    by decide, by decide, by decide⟩,
   resubmission_overwrites_in_place demoNormalAuth "s1" 4 2 demoDB
     (by decide) (by decide) (by decide) (by decide) (by decide) (by decide)
     (by decide) (by decide) (by decide) (by decide)⟩

/-- C3 counterexample: editing the single existing rating through the HEAD
branch (`updateRatingHead`) and through the value-only branch
(`updateRatingV2`) produces different states, and the HEAD branch leaves two
rows for the pair ("3","1") where the value-only branch leaves one — the two
merge-branch implementations are not equivalent. -/
theorem updateRating_branches_differ :
    updateRatingHead "1" 5 demoClient ≠ updateRatingV2 "1" 5 demoClient ∧
    pairCount (updateRatingHead "1" 5 demoClient).ratings "3" "1" = 2 ∧
    pairCount (updateRatingV2 "1" 5 demoClient).ratings "3" "1" = 1 := by
  decide

/-- C3 amended: the two branches are not equivalent.  When the edited rating
id resolves to an existing row, the HEAD branch appends an extra row for that
row's `(userId, storeId)` pair (as well as rewriting in place), increasing
the pair's row count by one, while the value-only branch leaves every pair's
row count unchanged. -/
theorem updateRating_branch_divergence (c : ClientState) (rid : String)
    (v : ℚ) (ex : Rating)
    (hfind : c.ratings.find? (fun r => r.id == rid) = some ex) :
    pairCount (updateRatingHead rid v c).ratings ex.userId ex.storeId
      = pairCount c.ratings ex.userId ex.storeId + 1 ∧
    ∀ u s, pairCount (updateRatingV2 rid v c).ratings u s
      = pairCount c.ratings u s := by
  have hf : ∀ r : Rating,
      ((fun r => if r.id == rid then { r with rating := v } else r) r).userId
        = r.userId ∧
      ((fun r => if r.id == rid then { r with rating := v } else r) r).storeId
        = r.storeId := by
    intro r
    cases h : r.id == rid <;> simp [h]
  constructor
  · have h1 : (updateRatingHead rid v c).ratings
        = ((c.ratings
              ++ [(⟨toString c.nextId, ex.userId, ex.storeId, v, c.now⟩ : Rating)]).map
            (fun r => if r.id == rid then { r with rating := v } else r)) := by
      rw [updateRatingHead, hfind]
      rfl
    rw [h1, pairCount_map_preserve hf, pairCount_append]
    simp [pairCount, pairPred, List.filter]
  · intro u s
    have h2 : (updateRatingV2 rid v c).ratings
        = c.ratings.map (fun r => if r.id == rid then { r with rating := v } else r) := by
      rw [updateRatingV2]
    rw [h2, pairCount_map_preserve hf]

/-- C3 amended witness: the divergence on the demo client state. -/
theorem updateRating_branch_divergence_witness :
    (demoClient.ratings.find? (fun r => r.id == "1") = some ⟨"1", "3", "1", 4, 0⟩) ∧
    (pairCount (updateRatingHead "1" 5 demoClient).ratings "3" "1"
        = pairCount demoClient.ratings "3" "1" + 1 ∧
     ∀ u s, pairCount (updateRatingV2 "1" 5 demoClient).ratings u s
        = pairCount demoClient.ratings u s) :=
  ⟨by decide,
   updateRating_branch_divergence demoClient "1" 5 ⟨"1", "3", "1", 4, 0⟩ (by decide)⟩

/-- C6: in the admin view, for a non-empty filter string, a store is included
in the filtered result exactly when the filter is a case-insensitive
substring of its name, its address, or its owner's email (the owner being
the unique user whose id matches the store's `ownerId`). -/
theorem admin_filter_matches_owner_email (users : List User)
    (stores : List Store) (term : String) (st : Store) (o : User)
    (ho : o ∈ users) (hoid : o.id = st.ownerId)
    (huniq : ∀ x ∈ users, x.id = st.ownerId → x = o)
    (hterm : term ≠ "") :
    st ∈ adminFilteredStores users term stores ↔
      st ∈ stores ∧
        (ciSubstr term st.name = true ∨ ciSubstr term st.address = true ∨
         ciSubstr term o.email = true) := by
  have hfind : users.find? (fun u => u.id == st.ownerId) = some o :=
    find?_eq_some_of_unique _ ho (by simp [hoid])
      (fun x hx hpx => huniq x hx (by simpa using hpx))
  rw [adminFilteredStores, if_neg hterm, List.mem_filter]
  have hmatch : adminStoreMatch users term st
      = (ciSubstr term st.name || ciSubstr term st.address
          || ciSubstr term o.email) := by
    rw [adminStoreMatch, hfind]
    rfl
  rw [hmatch]
  simp only [Bool.or_eq_true]
  tauto

/-- C6 witness: searching "OWNER@" finds the demo store through its owner's
email, case-insensitively. -/
theorem admin_filter_matches_owner_email_witness :
    (demoOwner ∈ [demoOwner] ∧ demoOwner.id = demoStore.ownerId ∧
     (∀ x ∈ [demoOwner], x.id = demoStore.ownerId → x = demoOwner) ∧
     "OWNER@" ≠ "") ∧
    (demoStore ∈ adminFilteredStores [demoOwner] "OWNER@" [demoStore] ↔
      demoStore ∈ [demoStore] ∧
        (ciSubstr "OWNER@" demoStore.name = true ∨
         ciSubstr "OWNER@" demoStore.address = true ∨
         ciSubstr "OWNER@" demoOwner.email = true)) :=
  ⟨⟨by decide, by decide, by decide, by decide⟩,
   admin_filter_matches_owner_email [demoOwner] [demoStore] "OWNER@"
     demoStore demoOwner (by decide) (by decide) (by decide) (by decide)⟩

/-- C9 counterexample: submitting a valid rating for the non-existent store
"s9" does not produce a NotFound error: the insert is rejected by the
foreign-key constraint and surfaces as an unhandled server error, with no
row created. -/
theorem submitRating_missing_store_not_notFound :
    (submitRating demoNormalAuth "s9" 4 demoDB).1
      = ApiResult.serverError DBError.foreignKeyViolation ∧
    (submitRating demoNormalAuth "s9" 4 demoDB).1 ≠ ApiResult.notFound ∧
    (submitRating demoNormalAuth "s9" 4 demoDB).2 = demoDB := by
  decide

/-- C9 amended: the handler performs no store-existence check.  When
`storeId` references no store (and the pair has no row), a valid in-range
integer rating fails with the storage layer's foreign-key violation surfaced
as an unhandled server error — not NotFound — and the state is unchanged;
an out-of-range rating fails with the 400 validation error. -/
theorem submitRating_missing_store_fk_error (me : AuthPayload) (s : String)
    (v : ℚ) (db : DBState)
    (hs : ∀ st ∈ db.stores, st.id ≠ s)
    (hpair : ∀ r ∈ db.ratings, pairPred me.id s r = false)
    (hl : 1 ≤ v) (hr : v ≤ 5) (hd : v.den = 1) :
    (submitRating me s v db).1 = ApiResult.serverError DBError.foreignKeyViolation ∧
    (submitRating me s v db).2 = db ∧
    (submitRating me s v db).1 ≠ ApiResult.notFound ∧
    ∀ w : ℚ, ¬(1 ≤ w ∧ w ≤ 5) → submitRating me s w db = (ApiResult.badRequest, db) := by
  have hv : ratingSchemaValid v = true := by simp [ratingSchemaValid, hl, hr]
  have hnes : ¬ ∃ x ∈ db.stores, x.id = s := by
    rintro ⟨x, hx, hxe⟩
    exact hs x hx hxe
  have hcreate : ratingCreate me.id s v db = .error .foreignKeyViolation := by
    rw [ratingCreate, if_neg (fun h => h hd)]
    by_cases hux : ∃ x ∈ db.users, x.id = me.id
    · rw [if_neg (not_not_intro hux), if_pos hnes]
    · rw [if_pos hux]
  have hmain : submitRating me s v db = (.serverError .foreignKeyViolation, db) := by
    rw [submitRating, ratingFindUnique_none hpair, submitRatingWith, if_pos hv,
      submitRatingWrite.eq_def]
    simp only [hcreate]
  refine ⟨by rw [hmain], by rw [hmain], by rw [hmain]; simp, ?_⟩
  intro w hw
  have hwv : ratingSchemaValid w = false := by
    by_cases h1 : 1 ≤ w
    · by_cases h2 : w ≤ 5
      · exact absurd ⟨h1, h2⟩ hw
      · simp [ratingSchemaValid, h1, h2]
    · simp [ratingSchemaValid, h1]
  rw [submitRating, submitRatingWith, if_neg (by simp [hwv])]

/-- C9 amended witness: the concrete missing-store submission on the demo
database. -/
theorem submitRating_missing_store_fk_error_witness :
    ((∀ st ∈ demoDB.stores, st.id ≠ "s9") ∧
     (∀ r ∈ demoDB.ratings, pairPred demoNormalAuth.id "s9" r = false) ∧
     (1 : ℚ) ≤ 4 ∧ (4 : ℚ) ≤ 5 ∧ (4 : ℚ).den = 1) ∧
    ((submitRating demoNormalAuth "s9" 4 demoDB).1
        = ApiResult.serverError DBError.foreignKeyViolation ∧
     (submitRating demoNormalAuth "s9" 4 demoDB).2 = demoDB ∧
     (submitRating demoNormalAuth "s9" 4 demoDB).1 ≠ ApiResult.notFound ∧
     ∀ w : ℚ, ¬(1 ≤ w ∧ w ≤ 5)
        → submitRating demoNormalAuth "s9" w demoDB = (ApiResult.badRequest, demoDB)) :=
  ⟨⟨by decide, by decide, by decide, by decide, by decide⟩,
   submitRating_missing_store_fk_error demoNormalAuth "s9" 4 demoDB
     (by decide) (by decide) (by decide) (by decide) (by decide)⟩

/-- C2 counterexample: in the interleaving where both requests read before
either writes, the storage constraint keeps the row count at one, but the
losing caller receives the uniqueness-constraint failure — the claim that no
uniqueness-constraint failure is ever surfaced (because the handler would
attempt an insert first with a fall-back) is false: the handler is
check-then-act. -/
theorem concurrent_submission_surfaces_unique_violation :
    (concurrentPair Sched.raceAB demoNormalAuth "s1" 3 5 demoDB).2.1
      = ApiResult.serverError DBError.uniqueViolation ∧
    pairCount (concurrentPair Sched.raceAB demoNormalAuth "s1" 3 5 demoDB).2.2.ratings
      "3" "s1" = 1 := by
  decide

/-- C2 amended: two concurrent `submitRating` calls for the same pair, under
every canonical interleaving of their read and write phases, leave exactly
one Rating row for the pair, holding the value of one of the two calls —
never two rows, never zero — because the storage-level unique constraint
rejects the second insert; but in the racy interleavings the losing caller
is surfaced the uniqueness-constraint failure, since the handler uses
check-then-act rather than insert-first-with-fallback. -/
theorem concurrent_submissions_single_row (me : AuthPayload) (s : String)
    (vA vB : ℚ) (db : DBState)
    (hu : ∃ x ∈ db.users, x.id = me.id)
    (hs : ∃ x ∈ db.stores, x.id = s)
    (hpair : ∀ r ∈ db.ratings, pairPred me.id s r = false)
    (hfresh : ∀ r ∈ db.ratings, r.id ≠ freshRatingId db)
    (hAl : 1 ≤ vA) (hAu : vA ≤ 5) (hdA : vA.den = 1)
    (hBl : 1 ≤ vB) (hBu : vB ≤ 5) (hdB : vB.den = 1) :
    ∀ sched : Sched, ∃ w : ℚ, (w = vA ∨ w = vB) ∧
      ((concurrentPair sched me s vA vB db).2.2.ratings.filter (pairPred me.id s))
        = [⟨freshRatingId db, me.id, s, w, db.now⟩] := by
  have hvA : ratingSchemaValid vA = true := by simp [ratingSchemaValid, hAl, hAu]
  have hvB : ratingSchemaValid vB = true := by simp [ratingSchemaValid, hBl, hBu]
  have hnone : ratingFindUnique me.id s db = none := ratingFindUnique_none hpair
  have hfilter : ∀ v : ℚ,
      ((db.ratings ++ [createdRow db me.id s v]).filter (pairPred me.id s))
        = [⟨freshRatingId db, me.id, s, v, db.now⟩] := by
    intro v
    rw [List.filter_append, filter_pair_nil hpair]
    simp [pairPred, createdRow]
  have hmem : ∀ v : ℚ,
      ∃ r ∈ (afterCreate db me.id s v).ratings, pairPred me.id s r = true := by
    intro v
    exact ⟨createdRow db me.id s v,
      List.mem_append_right _ (List.mem_singleton_self _),
      by simp [pairPred, createdRow]⟩
  intro sched
  cases sched with
  | seqAB =>
      refine ⟨vB, Or.inr rfl, ?_⟩
      have e1 : (submitRating me s vA db).2 = afterCreate db me.id s vA := by
        rw [submitRating_creates hvA hdA hu hs hpair]
      show ((submitRating me s vB (submitRating me s vA db).2).2.ratings.filter
        (pairPred me.id s)) = _
      rw [e1, @submitRating_updates me s vA vB db hvB hdB hpair hfresh]
      exact hfilter vB
  | seqBA =>
      refine ⟨vA, Or.inl rfl, ?_⟩
      have e1 : (submitRating me s vB db).2 = afterCreate db me.id s vB := by
        rw [submitRating_creates hvB hdB hu hs hpair]
      show ((submitRating me s vA (submitRating me s vB db).2).2.ratings.filter
        (pairPred me.id s)) = _
      rw [e1, @submitRating_updates me s vB vA db hvA hdA hpair hfresh]
      exact hfilter vA
  | raceAB =>
      refine ⟨vA, Or.inl rfl, ?_⟩
      show ((submitRatingWith me s vB (ratingFindUnique me.id s db)
              (submitRatingWith me s vA (ratingFindUnique me.id s db) db).2).2.ratings.filter
        (pairPred me.id s)) = _
      rw [hnone, submitRatingWith_none_ok hvA hdA hu hs hpair]
      show ((submitRatingWith me s vB none (afterCreate db me.id s vA)).2.ratings.filter
        (pairPred me.id s)) = _
      rw [@submitRatingWith_stale_conflict me s vB (afterCreate db me.id s vA) hvB hdB hu hs (hmem vA)]
      exact hfilter vA
  | raceBA =>
      refine ⟨vB, Or.inr rfl, ?_⟩
      show ((submitRatingWith me s vA (ratingFindUnique me.id s db)
              (submitRatingWith me s vB (ratingFindUnique me.id s db) db).2).2.ratings.filter
        (pairPred me.id s)) = _
      rw [hnone, submitRatingWith_none_ok hvB hdB hu hs hpair]
      show ((submitRatingWith me s vA none (afterCreate db me.id s vB)).2.ratings.filter
        (pairPred me.id s)) = _
      rw [@submitRatingWith_stale_conflict me s vA (afterCreate db me.id s vB) hvA hdA hu hs (hmem vB)]
      exact hfilter vB

/-- C2 amended witness: the concrete concurrent submissions 3 and 5 on the
demo database. -/
theorem concurrent_submissions_single_row_witness :
    ((∃ x ∈ demoDB.users, x.id = demoNormalAuth.id) ∧
     (∃ x ∈ demoDB.stores, x.id = "s1") ∧
     (∀ r ∈ demoDB.ratings, pairPred demoNormalAuth.id "s1" r = false) ∧
     (∀ r ∈ demoDB.ratings, r.id ≠ freshRatingId demoDB) ∧
     (1 : ℚ) ≤ 3 ∧ (3 : ℚ) ≤ 5 ∧ (3 : ℚ).den = 1 ∧
     (1 : ℚ) ≤ 5 ∧ (5 : ℚ) ≤ 5 ∧ (5 : ℚ).den = 1) ∧
    (∀ sched : Sched, ∃ w : ℚ, (w = 3 ∨ w = 5) ∧
      ((concurrentPair sched demoNormalAuth "s1" 3 5 demoDB).2.2.ratings.filter
        (pairPred demoNormalAuth.id "s1"))
        = [⟨freshRatingId demoDB, demoNormalAuth.id, "s1", w, demoDB.now⟩]) :=
  ⟨⟨by decide, by decide, by decide, by decide, by decide, by decide, by decide,
    by decide, by decide, by decide⟩,
   concurrent_submissions_single_row demoNormalAuth "s1" 3 5 demoDB
     (by decide) (by decide) (by decide) (by decide) (by decide) (by decide)
     (by decide) (by decide) (by decide) (by decide)⟩

end StoreStar
